import Mathlib

/-!
Verification of the SentinelScore contact-scoring pipeline (src/main.cpp).

The C++ program is embedded shallowly:

* `IFF`, `Contact`, `Weights` mirror the domain model.
* String utilities `trim`, `upper`, `splitCommas` mirror `trim`,
  `std::toupper` over the token, and the `std::getline(ss, tok, ',')`
  tokenizer (which, unlike a plain split, emits no empty token after a
  trailing comma and no token at all for an empty stream).
* The CSV ingest loop of `loadCSV` is embedded as `processLine` (one
  iteration of the `while (std::getline ...)` body, with the `maybeHeader`
  flag threaded through) and `parseRows` / `loadCSV` (the fold over all
  lines).  The outcome of each physical line is recorded as a `RowOutcome`
  so that silent skips, diagnosed skips and produced contacts can be told
  apart.  `std::stod` is not re-implemented bit for bit: the numeric parser
  is a parameter `pn : String → Option ℝ` (`none` models the `catch` branch
  of `toDouble`), and every parsing theorem is proved for an arbitrary `pn`.
* Doubles are idealised as real numbers; `score`, `clamp` and `suggestion`
  are transcribed term by term from the source.
* `std::sort` with comparator `a.second > b.second` guarantees only a
  permutation ordered by the comparator; `rank` realises that contract with
  insertion sort over the relation `b.2 ≤ a.2`.
* `mainRun` embeds the control flow of `main`: a missing input source is
  the thrown `std::runtime_error` (exit 2), an empty contact list exits 1
  without printing the table, otherwise the table is printed and exit is 0.
-/

/-- `enum class IFF { Friend, Foe, Unknown };` -/
inductive IFF where
  | Friend
  | Foe
  | Unknown
deriving DecidableEq, Repr

/-- `struct Contact` of src/main.cpp: id, IFF status and four numeric fields. -/
structure Contact where
  id : String
  iff : IFF
  range_km : ℝ
  closing_mps : ℝ
  altitude_m : ℝ
  rcs_m2 : ℝ

/-- The whitespace set `" \t\r\n"` used by the C++ `trim`. -/
def isSpaceChar (c : Char) : Bool :=
  c = ' ' || c = '\t' || c = '\r' || c = '\n'

/-- `trim`: strip leading and trailing `" \t\r\n"` characters. -/
def trim (s : String) : String :=
  String.mk (((s.toList.dropWhile isSpaceChar).reverse.dropWhile isSpaceChar).reverse)

/-- Uppercase every character, as the `std::toupper` loop in `parseIFF` does. -/
def upper (s : String) : String :=
  String.mk (s.toList.map Char.toUpper)

/-- `parseIFF`: case-insensitive classification-token parser. -/
def parseIFF (token : String) : Option IFF :=
  let t := upper token
  if t = "FRIEND" ∨ t = "F" then some IFF.Friend
  else if t = "FOE" ∨ t = "HOSTILE" ∨ t = "H" then some IFF.Foe
  else if t = "UNKNOWN" ∨ t = "U" then some IFF.Unknown
  else none

/-- Tokenizer core for `while (std::getline(ss, tok, ','))`: a comma ends the
current token; if the comma was the last character the stream is then empty and
the loop stops without emitting a further empty token. -/
def splitCommasAux (cur : List Char) : List Char → List String
  | [] => [String.mk cur.reverse]
  | [','] => [String.mk cur.reverse]
  | c :: cs =>
      if c = ',' then String.mk cur.reverse :: splitCommasAux [] cs
      else splitCommasAux (c :: cur) cs

/-- Split a line on commas with `std::getline` semantics (an empty stream
yields no token at all). -/
def splitCommas (s : String) : List String :=
  match s.toList with
  | [] => []
  | l => splitCommasAux [] l

/-- The column list of a raw line: trim the line, split on commas, trim each
column — exactly the `cols` vector built in `loadCSV`. -/
def colsOf (raw : String) : List String :=
  (splitCommas (trim raw)).map trim

/-- `toDouble`: parse with the supplied numeric parser, falling back to the
default on failure (the `catch (...) { return def; }` branch). -/
def toDouble (pn : String → Option ℝ) (s : String) (d : ℝ) : ℝ :=
  (pn s).getD d

/-- What `loadCSV` does with one physical line: skip it silently (empty or
comment line, or detected header), skip it with a diagnostic on stderr
(malformed row, invalid IFF), or produce a `Contact`. -/
inductive RowOutcome where
  | blank
  | header
  | malformed
  | badIFF
  | ok (c : Contact)

/-- One iteration of the `while (std::getline(in, line))` body of `loadCSV`,
given the current `maybeHeader` flag; returns the line's outcome and the
updated flag. -/
def processLine (pn : String → Option ℝ) (mh : Bool) (raw : String) :
    RowOutcome × Bool :=
  let line := trim raw
  if line = "" then (RowOutcome.blank, mh)
  else if line.toList.headD ' ' = '#' then (RowOutcome.blank, mh)
  else
      let cols := colsOf raw
      if mh = true ∧ 6 ≤ cols.length ∧
          (parseIFF (cols.getD 1 "") = none ∨ cols.getD 2 "" = "range_km" ∨
            cols.getD 3 "" = "closing_mps") then
        (RowOutcome.header, false)
      else if cols.length < 6 then (RowOutcome.malformed, false)
      else
        match parseIFF (cols.getD 1 "") with
        | none => (RowOutcome.badIFF, false)
        | some v =>
            (RowOutcome.ok
              { id := cols.getD 0 ""
                iff := v
                range_km := toDouble pn (cols.getD 2 "") 1e9
                closing_mps := toDouble pn (cols.getD 3 "") 0
                altitude_m := toDouble pn (cols.getD 4 "") 0
                rcs_m2 := toDouble pn (cols.getD 5 "") 1 }, false)

/-- One step of the ingest fold: thread the `maybeHeader` flag and append the
line's outcome. -/
def parseStep (pn : String → Option ℝ) (st : Bool × List RowOutcome)
    (raw : String) : Bool × List RowOutcome :=
  let r := processLine pn st.1 raw
  (r.2, st.2 ++ [r.1])

/-- The whole ingest loop: fold `processLine` over the lines, starting with
`maybeHeader = true`, recording each line's outcome in order. -/
def parseRows (pn : String → Option ℝ) (lines : List String) : List RowOutcome :=
  (lines.foldl (parseStep pn) (true, [])).2

/-- `true` exactly for the silently skipped header outcome. -/
def isHeaderOutcome : RowOutcome → Bool
  | RowOutcome.header => true
  | _ => false

/-- The contacts returned by `loadCSV`: the `ok` outcomes, in input order. -/
def loadCSV (pn : String → Option ℝ) (lines : List String) : List Contact :=
  (parseRows pn lines).filterMap
    (fun o => match o with | RowOutcome.ok c => some c | _ => none)

/-- `struct Weights` with its default member initialisers. -/
structure Weights where
  w_range_inv : ℝ := 60
  w_closing : ℝ := 0.25
  w_rcs : ℝ := 0.4
  w_iff_friend : ℝ := -40
  w_iff_unknown : ℝ := 15
  w_iff_foe : ℝ := 30
  w_alt_low : ℝ := 0.004

/-- `Weights w{};` — the fixed default weight configuration used by `main`. -/
def defaultWeights : Weights := {}

/-- `clamp(x, lo, hi) = std::max(lo, std::min(hi, x))`. -/
noncomputable def clamp (x lo hi : ℝ) : ℝ :=
  max lo (min hi x)

/-- `inv_range`: `1/range` when `range_km > 0.05`, else the cap `20.0`. -/
noncomputable def invRangeFactor (r : ℝ) : ℝ :=
  if 0.05 < r then 1 / r else 20

/-- `s_range = w_range_inv * inv_range`. -/
noncomputable def sRange (w : Weights) (r : ℝ) : ℝ :=
  w.w_range_inv * invRangeFactor r

/-- `closing_norm = clamp(closing/400, 0, 1)`. -/
noncomputable def closingNorm (c : ℝ) : ℝ :=
  clamp (c / 400) 0 1

/-- `s_closing = w_closing * (closing_norm * 100)`. -/
noncomputable def sClosing (w : Weights) (c : ℝ) : ℝ :=
  w.w_closing * (closingNorm c * 100)

/-- `rcs_log = log10(max(0.01, rcs))`. -/
noncomputable def rcsLog (x : ℝ) : ℝ :=
  Real.logb 10 (max 0.01 x)

/-- `s_rcs = w_rcs * ((rcs_log + 2) * 25)`. -/
noncomputable def sRcs (w : Weights) (x : ℝ) : ℝ :=
  w.w_rcs * ((rcsLog x + 2) * 25)

/-- `alt_term = (20000 - clamp(alt, 0, 20000)) / 200`. -/
noncomputable def altTerm (a : ℝ) : ℝ :=
  (20000 - clamp a 0 20000) / 200

/-- `s_alt = w_alt_low * alt_term`. -/
noncomputable def sAlt (w : Weights) (a : ℝ) : ℝ :=
  w.w_alt_low * altTerm a

/-- The `switch (c.iff)` lookup of the classification bonus/penalty. -/
def sIff (w : Weights) : IFF → ℝ
  | IFF.Friend => w.w_iff_friend
  | IFF.Unknown => w.w_iff_unknown
  | IFF.Foe => w.w_iff_foe

/-- `score(c, w)`: the sum of the five weighted terms. -/
noncomputable def score (c : Contact) (w : Weights) : ℝ :=
  sRange w c.range_km + sClosing w c.closing_mps + sRcs w c.rcs_m2 +
    sAlt w c.altitude_m + sIff w c.iff

/-- `suggestion(c, riskScore)`: the ordered threshold rules of the engagement
suggestion, first match wins. -/
noncomputable def suggestion (c : Contact) (riskScore : ℝ) : String :=
  if c.iff = IFF.Friend then "IGNORE (FRIEND)"
  else if 120 < riskScore ∧ c.range_km < 25 ∧ 100 < c.closing_mps then
    "INTERCEPT"
  else if 80 < riskScore ∧ c.range_km < 50 then "ELEVATED MONITOR"
  else "MONITOR"

/-- The ranking comparator, as the partial order std::sort establishes: entry
`a` may precede entry `b` exactly when `b.second ≤ a.second`. -/
def rankLE (a b : Contact × ℝ) : Prop :=
  b.2 ≤ a.2

noncomputable instance : DecidableRel rankLE :=
  fun a b => Real.decidableLE b.2 a.2

/-- `std::sort(ranked.begin(), ranked.end(), [](a, b){ return a.second > b.second; })`:
the standard guarantees a permutation of the input that is sorted for the
comparator, which `insertionSort` over `rankLE` realises. -/
noncomputable def rank (l : List (Contact × ℝ)) : List (Contact × ℝ) :=
  List.insertionSort rankLE l

/-- The control flow of `main`: `none` is an input source that cannot be
opened (`loadCSV` throws and the catch block returns 2); otherwise the parsed
contacts decide between exit 1 with no table and exit 0 with the table
printed.  The second component records whether the ranked table was printed,
the third whether `main` itself wrote a diagnostic line to standard error
(the catch block's `ERROR: ...` or the empty-result `No contacts loaded`). -/
def mainRun (pn : String → Option ℝ) (input : Option (List String)) :
    Nat × Bool × Bool :=
  match input with
  | none => (2, false, true)
  | some lines =>
      if (loadCSV pn lines).isEmpty then (1, false, true) else (0, true, false)

instance : IsTotal (Contact × ℝ) rankLE :=
  ⟨fun a b => le_total b.2 a.2⟩

instance : IsTrans (Contact × ℝ) rankLE :=
  ⟨fun _ _ _ hab hbc => le_trans hbc hab⟩

/-- The contact parsed from the example row `B2,Foe,10,150,500,20`. -/
def exampleRowContact : Contact := ⟨"B2", IFF.Foe, 10, 150, 500, 20⟩

/-- A two-element input for the ranking witness. -/
def rankWitnessInput : List (Contact × ℝ) :=
  [(⟨"A", IFF.Unknown, 1, 2, 3, 4⟩, 5), (⟨"B", IFF.Foe, 1, 2, 3, 4⟩, 7)]

/-- The header test exactly as the spec sentence words it: fewer than 6
columns, OR an unparsable classification column, OR the literal `range_km`
in the range position, OR the literal `closing_mps` in the closing position.
(Transcribed from the spec for comparison with the code's actual test.) -/
def specHeaderTest (cols : List String) : Prop :=
  cols.length < 6 ∨ parseIFF (cols.getD 1 "") = none ∨
    cols.getD 2 "" = "range_km" ∨ cols.getD 3 "" = "closing_mps"

/-! ### Supporting lemmas -/

lemma logb_ten_hundredth : Real.logb 10 (0.01 : ℝ) = -2 := by
  have h : (0.01 : ℝ) = (10 : ℝ) ^ (-2 : ℤ) := by norm_num
  have h10 : Real.log 10 ≠ 0 := ne_of_gt (Real.log_pos (by norm_num))
  rw [h, ← Real.log_div_log, Real.log_zpow, mul_div_assoc, div_self h10, mul_one]
  norm_num

lemma logb_ten_pow (n : ℕ) : Real.logb 10 ((10 : ℝ) ^ n) = n := by
  rw [Real.logb_pow, Real.logb_self_eq_one (by norm_num : (1:ℝ) < 10), mul_one]

lemma w_range_inv_default : defaultWeights.w_range_inv = 60 := rfl

lemma w_closing_default : defaultWeights.w_closing = 0.25 := rfl

lemma w_rcs_default : defaultWeights.w_rcs = 0.4 := rfl

lemma w_alt_low_default : defaultWeights.w_alt_low = 0.004 := rfl

lemma logb_twenty_lb : (1.301 : ℝ) < Real.logb 10 20 := by
  have key : Real.logb 10 ((10 : ℝ) ^ (1301 : ℕ)) <
      Real.logb 10 ((20 : ℝ) ^ (1000 : ℕ)) := by
    apply Real.logb_lt_logb (by norm_num) (by positivity)
    norm_num
  rw [logb_ten_pow, Real.logb_pow] at key
  push_cast at key
  linarith

lemma logb_twenty_ub : Real.logb 10 20 < (1.302 : ℝ) := by
  have key : Real.logb 10 ((20 : ℝ) ^ (1000 : ℕ)) <
      Real.logb 10 ((10 : ℝ) ^ (1302 : ℕ)) := by
    apply Real.logb_lt_logb (by norm_num) (by positivity)
    norm_num
  rw [logb_ten_pow, Real.logb_pow] at key
  push_cast at key
  linarith

lemma exampleRow_score_eq :
    score exampleRowContact defaultWeights = 65.765 + 10 * Real.logb 10 20 := by
  have e1 : sRange defaultWeights 10 = 6 := by
    unfold sRange invRangeFactor
    rw [w_range_inv_default, if_pos (by norm_num : (0.05 : ℝ) < 10)]
    norm_num
  have e2 : sClosing defaultWeights 150 = 9.375 := by
    unfold sClosing closingNorm clamp
    rw [w_closing_default, min_eq_right (by norm_num), max_eq_right (by norm_num)]
    norm_num
  have e3 : sRcs defaultWeights 20 = 10 * Real.logb 10 20 + 20 := by
    unfold sRcs rcsLog
    rw [w_rcs_default, max_eq_right (by norm_num)]
    ring
  have e4 : sAlt defaultWeights 500 = 0.39 := by
    unfold sAlt altTerm clamp
    rw [w_alt_low_default, min_eq_right (by norm_num), max_eq_right (by norm_num)]
    norm_num
  have e5 : sIff defaultWeights IFF.Foe = 30 := rfl
  unfold score
  rw [show exampleRowContact.range_km = (10 : ℝ) from rfl,
    show exampleRowContact.closing_mps = (150 : ℝ) from rfl,
    show exampleRowContact.rcs_m2 = (20 : ℝ) from rfl,
    show exampleRowContact.altitude_m = (500 : ℝ) from rfl,
    show exampleRowContact.iff = IFF.Foe from rfl,
    e1, e2, e3, e4, e5]
  ring

lemma processLine_false_not_header (pn : String → Option ℝ) (raw : String) :
    (processLine pn false raw).1 ≠ RowOutcome.header := by
  unfold processLine
  dsimp only
  split_ifs with h1 h2 h3 h4
  · simp
  · simp
  · simp at h3
  · simp
  · split <;> simp

lemma processLine_snd_of_false (pn : String → Option ℝ) (raw : String) :
    (processLine pn false raw).2 = false := by
  unfold processLine
  dsimp only
  split_ifs <;> first | rfl | (split <;> rfl)

lemma processLine_blank_or_snd_false (pn : String → Option ℝ) (mh : Bool)
    (raw : String) :
    processLine pn mh raw = (RowOutcome.blank, mh) ∨
      (processLine pn mh raw).2 = false := by
  unfold processLine
  dsimp only
  split_ifs
  · exact Or.inl rfl
  · exact Or.inl rfl
  · exact Or.inr rfl
  · exact Or.inr rfl
  · right
    split <;> rfl

/-- On a non-blank, non-comment line, `processLine` reduces to the header
test, the column-count test and the classification dispatch. -/
lemma processLine_data_eq (pn : String → Option ℝ) (mh : Bool) (raw : String)
    (hn : trim raw ≠ "") (hh : (trim raw).toList.headD ' ' ≠ '#') :
    processLine pn mh raw =
      if mh = true ∧ 6 ≤ (colsOf raw).length ∧
          (parseIFF ((colsOf raw).getD 1 "") = none ∨
            (colsOf raw).getD 2 "" = "range_km" ∨
            (colsOf raw).getD 3 "" = "closing_mps") then
        (RowOutcome.header, false)
      else if (colsOf raw).length < 6 then (RowOutcome.malformed, false)
      else
        match parseIFF ((colsOf raw).getD 1 "") with
        | none => (RowOutcome.badIFF, false)
        | some v =>
            (RowOutcome.ok
              { id := (colsOf raw).getD 0 ""
                iff := v
                range_km := toDouble pn ((colsOf raw).getD 2 "") 1e9
                closing_mps := toDouble pn ((colsOf raw).getD 3 "") 0
                altitude_m := toDouble pn ((colsOf raw).getD 4 "") 0
                rcs_m2 := toDouble pn ((colsOf raw).getD 5 "") 1 }, false) := by
  unfold processLine
  dsimp only
  rw [if_neg hn, if_neg hh]

lemma countP_append_singleton (acc : List RowOutcome) (o : RowOutcome) :
    (acc ++ [o]).countP isHeaderOutcome =
      acc.countP isHeaderOutcome + (if isHeaderOutcome o then 1 else 0) := by
  rw [List.countP_append]
  simp [List.countP_cons]

lemma foldl_header_count (pn : String → Option ℝ) :
    ∀ (lines : List String) (mh : Bool) (acc : List RowOutcome),
      ((lines.foldl (parseStep pn) (mh, acc)).2.countP isHeaderOutcome) ≤
        acc.countP isHeaderOutcome + (cond mh 1 0) := by
  intro lines
  induction lines with
  | nil =>
    intro mh acc
    cases mh <;> simp
  | cons raw rest ih =>
    intro mh acc
    rw [List.foldl_cons]
    have hstep : parseStep pn (mh, acc) raw =
        ((processLine pn mh raw).2, acc ++ [(processLine pn mh raw).1]) := rfl
    rw [hstep]
    cases mh with
    | false =>
      have h1 : (processLine pn false raw).1 ≠ RowOutcome.header :=
        processLine_false_not_header pn raw
      have h2 : (processLine pn false raw).2 = false :=
        processLine_snd_of_false pn raw
      have hc : isHeaderOutcome (processLine pn false raw).1 = false := by
        cases ho : (processLine pn false raw).1 <;> simp [isHeaderOutcome]
        exact h1 ho
      rw [h2]
      have := ih false (acc ++ [(processLine pn false raw).1])
      rw [countP_append_singleton, hc] at this
      simpa using this
    | true =>
      by_cases ho : (processLine pn true raw).1 = RowOutcome.header
      · have hsnd : (processLine pn true raw).2 = false := by
          rcases processLine_blank_or_snd_false pn true raw with h | h
          · rw [h] at ho
            exact absurd ho (by simp)
          · exact h
        have hc : isHeaderOutcome (processLine pn true raw).1 = true := by
          rw [ho]
          rfl
        rw [hsnd]
        have := ih false (acc ++ [(processLine pn true raw).1])
        rw [countP_append_singleton, hc] at this
        simpa using this
      · have hc : isHeaderOutcome (processLine pn true raw).1 = false := by
          cases h : (processLine pn true raw).1 <;> simp [isHeaderOutcome]
          exact ho h
        cases h2 : (processLine pn true raw).2 with
        | false =>
          have := ih false (acc ++ [(processLine pn true raw).1])
          rw [countP_append_singleton, hc] at this
          simp at this ⊢
          omega
        | true =>
          have := ih true (acc ++ [(processLine pn true raw).1])
          rw [countP_append_singleton, hc] at this
          simp at this ⊢
          omega

/-! ### Claim theorems -/

/-- C1 counterexample: the first candidate line `a,b` satisfies the spec's
header test (it has fewer than 6 columns), yet the code does not classify it
as a header: it is discarded as a malformed row, with a diagnostic. -/
theorem header_detection_counterexample :
    specHeaderTest (colsOf "a,b") ∧
    (processLine (fun _ => none) true "a,b").1 = RowOutcome.malformed ∧
    RowOutcome.malformed ≠ RowOutcome.header := by
  refine ⟨Or.inl (by decide), rfl, fun h => RowOutcome.noConfusion h⟩

/-- C1 amended: on the first candidate (non-blank, non-comment) line, the
header check fires exactly when the line has at least 6 columns AND one of
the three content tests holds; a first candidate line with fewer than 6
columns is instead discarded as malformed (with a diagnostic); after any
candidate line the `maybeHeader` flag is false; a line processed with the
flag already cleared is never classified as a header; and a whole parse
produces at most one header outcome. -/
theorem header_detection (pn : String → Option ℝ) (raw : String)
    (hn : trim raw ≠ "") (hh : (trim raw).toList.headD ' ' ≠ '#') :
    ((processLine pn true raw).1 = RowOutcome.header ↔
      6 ≤ (colsOf raw).length ∧
        (parseIFF ((colsOf raw).getD 1 "") = none ∨
          (colsOf raw).getD 2 "" = "range_km" ∨
          (colsOf raw).getD 3 "" = "closing_mps")) ∧
    ((colsOf raw).length < 6 →
      (processLine pn true raw).1 = RowOutcome.malformed) ∧
    (∀ mh : Bool, (processLine pn mh raw).2 = false) ∧
    (processLine pn false raw).1 ≠ RowOutcome.header ∧
    (∀ lines : List String,
      (parseRows pn lines).countP isHeaderOutcome ≤ 1) := by
  have hdata := fun mh => processLine_data_eq pn mh raw hn hh
  refine ⟨?_, ?_, ?_, processLine_false_not_header pn raw, ?_⟩
  · rw [hdata true]
    split_ifs with h h2
    · exact ⟨fun _ => ⟨h.2.1, h.2.2⟩, fun _ => rfl⟩
    · constructor
      · intro hout
        exact absurd hout (by simp)
      · intro hX
        exact absurd h2 (Nat.not_lt.mpr hX.1)
    · constructor
      · intro hout
        rcases hiff : parseIFF ((colsOf raw).getD 1 "") with _ | v <;>
          rw [hiff] at hout <;> simp at hout
      · intro hX
        exact absurd ⟨rfl, hX.1, hX.2⟩ h
  · intro hlen
    rw [hdata true, if_neg (fun h => absurd h.2.1 (Nat.not_le.mpr hlen)),
      if_pos hlen]
  · intro mh
    rw [hdata mh]
    split_ifs <;> first | rfl | (split <;> rfl)
  · intro lines
    have := foldl_header_count pn lines true []
    simpa [parseRows] using this

/-- Witness for C1 amended: the literal header line
`id,iff,range_km,closing_mps,alt,rcs` (6 columns, `range_km` in the range
position) is classified as a header, and the three-column line `a,b,c` is
discarded as malformed. -/
theorem header_detection_witness :
    (processLine (fun _ => none) true "id,iff,range_km,closing_mps,alt,rcs").1 =
      RowOutcome.header ∧
    (processLine (fun _ => none) true "a,b,c").1 = RowOutcome.malformed :=
  ⟨(header_detection (fun _ => none) "id,iff,range_km,closing_mps,alt,rcs"
      (by decide) (by decide)).1.mpr ⟨by decide, Or.inr (Or.inl (by decide))⟩,
   (header_detection (fun _ => none) "a,b,c" (by decide) (by decide)).2.1
      (by decide)⟩

/-- C2: the row `B2,Foe,10,150,500,20` parses to `exampleRowContact`; under
the default weights its score lies in (78.77, 78.79) — in particular it is
neither above 120 nor above 80 — so the suggestion falls through to
`MONITOR`. -/
theorem exampleRow_scored_monitor (pn : String → Option ℝ)
    (h10 : pn "10" = some 10) (h150 : pn "150" = some 150)
    (h500 : pn "500" = some 500) (h20 : pn "20" = some 20) :
    (processLine pn false "B2,Foe,10,150,500,20").1 =
      RowOutcome.ok exampleRowContact ∧
    78.77 < score exampleRowContact defaultWeights ∧
    score exampleRowContact defaultWeights < 78.79 ∧
    ¬ 120 < score exampleRowContact defaultWeights ∧
    ¬ 80 < score exampleRowContact defaultWeights ∧
    suggestion exampleRowContact (score exampleRowContact defaultWeights) =
      "MONITOR" := by
  have hlo : 78.77 < score exampleRowContact defaultWeights := by
    rw [exampleRow_score_eq]
    have := logb_twenty_lb
    linarith
  have hhi : score exampleRowContact defaultWeights < 78.79 := by
    rw [exampleRow_score_eq]
    have := logb_twenty_ub
    linarith
  have hparse : (processLine pn false "B2,Foe,10,150,500,20").1 =
      RowOutcome.ok exampleRowContact := by
    have hp : (processLine pn false "B2,Foe,10,150,500,20").1 =
        RowOutcome.ok ⟨"B2", IFF.Foe, toDouble pn "10" 1e9, toDouble pn "150" 0,
          toDouble pn "500" 0, toDouble pn "20" 1⟩ := rfl
    rw [hp]
    unfold toDouble
    rw [h10, h150, h500, h20]
    rfl
  have hsugg : suggestion exampleRowContact
      (score exampleRowContact defaultWeights) = "MONITOR" := by
    unfold suggestion
    rw [if_neg (by decide :
        ¬ exampleRowContact.iff = IFF.Friend)]
    rw [if_neg (fun h => absurd h.1 (by linarith))]
    rw [if_neg (fun h => absurd h.1 (by linarith))]
  exact ⟨hparse, hlo, hhi, by linarith, by linarith, hsugg⟩

/-- Witness for C2: with the literal numeric parser that reads exactly the
four numerals of the example row, all hypotheses hold concretely. -/
theorem exampleRow_scored_monitor_witness :
    (processLine
        (fun s => if s = "10" then some 10 else if s = "150" then some 150
          else if s = "500" then some 500 else if s = "20" then some 20
          else none)
        false "B2,Foe,10,150,500,20").1 = RowOutcome.ok exampleRowContact ∧
    78.77 < score exampleRowContact defaultWeights ∧
    score exampleRowContact defaultWeights < 78.79 ∧
    ¬ 120 < score exampleRowContact defaultWeights ∧
    ¬ 80 < score exampleRowContact defaultWeights ∧
    suggestion exampleRowContact (score exampleRowContact defaultWeights) =
      "MONITOR" :=
  exampleRow_scored_monitor _ rfl rfl rfl rfl

/-- C3: a Friend contact is always classified `IGNORE (FRIEND)` (the
`IGNORE_FRIEND` category), for any score and any range/closing values: the
Friend test is the first rule and short-circuits all numeric thresholds. -/
theorem friend_always_ignored (c : Contact) (s : ℝ) (h : c.iff = IFF.Friend) :
    suggestion c s = "IGNORE (FRIEND)" := by
  simp [suggestion, h]

/-- Witness for C3: a Friend contact at close range, high closing speed and an
enormous score is still `IGNORE (FRIEND)`. -/
theorem friend_always_ignored_witness :
    suggestion ⟨"A1", IFF.Friend, 10, 500, 1000, 5⟩ 1000000 = "IGNORE (FRIEND)" :=
  friend_always_ignored _ _ rfl

/-- C4: for every non-empty list of (Contact, score) pairs the ranker output
is sorted non-ascending by score and has the same length as the input. -/
theorem rank_sorted_same_length (l : List (Contact × ℝ)) (h : l ≠ []) :
    (rank l).Sorted rankLE ∧ (rank l).length = l.length :=
  ⟨List.sorted_insertionSort rankLE l, (List.perm_insertionSort rankLE l).length_eq⟩

/-- Witness for C4: ranking the concrete two-element input gives a sorted
list of the same length. -/
theorem rank_sorted_same_length_witness :
    (rank rankWitnessInput).Sorted rankLE ∧
      (rank rankWitnessInput).length = rankWitnessInput.length :=
  rank_sorted_same_length rankWitnessInput (List.cons_ne_nil _ _)

/-- C5: strict monotonicity of the four physical terms under the default
weights: the inverse-range term strictly decreases as range grows above the
0.05 km floor; the closing term strictly increases on [0, 400]; the RCS term
strictly increases on [0.01, 100]; the altitude term strictly decreases as
altitude grows within [0, 20000]. -/
theorem score_terms_monotone :
    (∀ r1 r2 : ℝ, 0.05 < r1 → r1 < r2 →
      sRange defaultWeights r2 < sRange defaultWeights r1) ∧
    (∀ c1 c2 : ℝ, 0 ≤ c1 → c1 < c2 → c2 ≤ 400 →
      sClosing defaultWeights c1 < sClosing defaultWeights c2) ∧
    (∀ x1 x2 : ℝ, 0.01 ≤ x1 → x1 < x2 → x2 ≤ 100 →
      sRcs defaultWeights x1 < sRcs defaultWeights x2) ∧
    (∀ a1 a2 : ℝ, 0 ≤ a1 → a1 < a2 → a2 ≤ 20000 →
      sAlt defaultWeights a2 < sAlt defaultWeights a1) := by
  refine ⟨fun r1 r2 h1 h12 => ?_, fun c1 c2 h1 h12 h2 => ?_,
    fun x1 x2 h1 h12 h2 => ?_, fun a1 a2 h1 h12 h2 => ?_⟩
  · unfold sRange invRangeFactor
    rw [w_range_inv_default, if_pos h1, if_pos (by linarith : (0.05 : ℝ) < r2)]
    have hinv : 1 / r2 < 1 / r1 :=
      one_div_lt_one_div_of_lt (by linarith) h12
    linarith
  · unfold sClosing closingNorm clamp
    rw [w_closing_default]
    have e1 : max 0 (min 1 (c1 / 400)) = c1 / 400 := by
      rw [min_eq_right (by linarith), max_eq_right (by linarith)]
    have e2 : max 0 (min 1 (c2 / 400)) = c2 / 400 := by
      rw [min_eq_right (by linarith), max_eq_right (by linarith)]
    rw [e1, e2]
    have h : c1 / 400 < c2 / 400 := by linarith
    linarith
  · unfold sRcs rcsLog
    rw [w_rcs_default, max_eq_right (by linarith), max_eq_right (by linarith)]
    have hlog : Real.logb 10 x1 < Real.logb 10 x2 :=
      Real.logb_lt_logb (by norm_num) (by linarith) h12
    nlinarith
  · unfold sAlt altTerm clamp
    rw [w_alt_low_default]
    have e1 : max 0 (min 20000 a1) = a1 := by
      rw [min_eq_right (by linarith), max_eq_right h1]
    have e2 : max 0 (min 20000 a2) = a2 := by
      rw [min_eq_right (by linarith), max_eq_right (by linarith)]
    rw [e1, e2]
    have h : (20000 - a2) / 200 < (20000 - a1) / 200 := by linarith
    linarith

/-- Witness for C5: concrete strict inequalities at ranges 1 < 2, closing
speeds 100 < 200, RCS 1 < 10 and altitudes 1000 < 2000. -/
theorem score_terms_monotone_witness :
    sRange defaultWeights 2 < sRange defaultWeights 1 ∧
    sClosing defaultWeights 100 < sClosing defaultWeights 200 ∧
    sRcs defaultWeights 1 < sRcs defaultWeights 10 ∧
    sAlt defaultWeights 2000 < sAlt defaultWeights 1000 :=
  ⟨score_terms_monotone.1 1 2 (by norm_num) (by norm_num),
   score_terms_monotone.2.1 100 200 (by norm_num) (by norm_num) (by norm_num),
   score_terms_monotone.2.2.1 1 10 (by norm_num) (by norm_num) (by norm_num),
   score_terms_monotone.2.2.2 1000 2000 (by norm_num) (by norm_num) (by norm_num)⟩

/-- C6: a data row with at least 6 columns and a recognized classification
token is always kept, and each numeric field whose text fails to parse gets
its documented default: range 1e9, closing 0, altitude 0, RCS 1.  The row is
never discarded for a numeric parse failure. -/
theorem numeric_fallback (pn : String → Option ℝ) (raw : String)
    (hn : trim raw ≠ "") (hh : (trim raw).toList.headD ' ' ≠ '#')
    (h6 : 6 ≤ (colsOf raw).length) (v : IFF)
    (hiff : parseIFF ((colsOf raw).getD 1 "") = some v) :
    ∃ c : Contact, (processLine pn false raw).1 = RowOutcome.ok c ∧
      c.id = (colsOf raw).getD 0 "" ∧ c.iff = v ∧
      (pn ((colsOf raw).getD 2 "") = none → c.range_km = 1e9) ∧
      (pn ((colsOf raw).getD 3 "") = none → c.closing_mps = 0) ∧
      (pn ((colsOf raw).getD 4 "") = none → c.altitude_m = 0) ∧
      (pn ((colsOf raw).getD 5 "") = none → c.rcs_m2 = 1) := by
  rw [processLine_data_eq pn false raw hn hh,
    if_neg (by simp : ¬ (false = true ∧ _)), if_neg (Nat.not_lt.mpr h6)]
  refine ⟨_, by rw [hiff], rfl, rfl, fun h => ?_, fun h => ?_, fun h => ?_,
    fun h => ?_⟩ <;> (simp only [toDouble]; rw [h]; rfl)

/-- Witness for C6: the row `A1,Foe,aa,bb,cc,dd` under a numeric parser that
fails on every token is kept as a Foe contact with all four defaults. -/
theorem numeric_fallback_witness :
    ∃ c : Contact,
      (processLine (fun _ => none) false "A1,Foe,aa,bb,cc,dd").1 =
        RowOutcome.ok c ∧
      c.id = (colsOf "A1,Foe,aa,bb,cc,dd").getD 0 "" ∧ c.iff = IFF.Foe ∧
      ((fun _ => (none : Option ℝ)) ((colsOf "A1,Foe,aa,bb,cc,dd").getD 2 "") =
          none → c.range_km = 1e9) ∧
      ((fun _ => (none : Option ℝ)) ((colsOf "A1,Foe,aa,bb,cc,dd").getD 3 "") =
          none → c.closing_mps = 0) ∧
      ((fun _ => (none : Option ℝ)) ((colsOf "A1,Foe,aa,bb,cc,dd").getD 4 "") =
          none → c.altitude_m = 0) ∧
      ((fun _ => (none : Option ℝ)) ((colsOf "A1,Foe,aa,bb,cc,dd").getD 5 "") =
          none → c.rcs_m2 = 1) :=
  numeric_fallback (fun _ => none) "A1,Foe,aa,bb,cc,dd" (by decide) (by decide)
    (by decide) IFF.Foe (by decide)

/-- C7: the exit-code mapping of `main`: an unopenable input source exits 2
with a stderr diagnostic and no table; a readable source with zero usable
records exits 1 with a stderr diagnostic and no table printed; a readable
source with at least one usable record exits 0 and the table is printed. -/
theorem exit_code_mapping (pn : String → Option ℝ) :
    mainRun pn none = (2, false, true) ∧
    (∀ lines, loadCSV pn lines = [] → mainRun pn (some lines) = (1, false, true)) ∧
    (∀ lines, loadCSV pn lines ≠ [] → mainRun pn (some lines) = (0, true, false)) := by
  refine ⟨rfl, fun lines h => ?_, fun lines h => ?_⟩
  · simp [mainRun, h]
  · simp [mainRun, List.isEmpty_iff, h]

/-- Witness for C7: an empty input yields exit 1; a single valid Foe row
yields exit 0 with the table printed. -/
theorem exit_code_mapping_witness :
    mainRun (fun _ => none) (some []) = (1, false, true) ∧
    mainRun (fun _ => none) (some ["A,Foe,1,2,3,4"]) = (0, true, false) :=
  ⟨(exit_code_mapping (fun _ => none)).2.1 [] rfl,
   (exit_code_mapping (fun _ => none)).2.2 ["A,Foe,1,2,3,4"]
     (List.cons_ne_nil _ _)⟩

/-- C8: the classification column is matched case-insensitively — FRIEND/F
to Friend, FOE/HOSTILE/H to Foe, UNKNOWN/U to Unknown, anything else to a
parse failure; a data row whose token fails to parse is discarded with a
diagnostic (`badIFF`), and every contact the parser produces carries the
classification parsed from its own row's token. -/
theorem classification_tokens :
    (∀ t : String,
      (parseIFF t = some IFF.Friend ↔ (upper t = "FRIEND" ∨ upper t = "F")) ∧
      (parseIFF t = some IFF.Foe ↔
        (upper t = "FOE" ∨ upper t = "HOSTILE" ∨ upper t = "H")) ∧
      (parseIFF t = some IFF.Unknown ↔ (upper t = "UNKNOWN" ∨ upper t = "U")) ∧
      (parseIFF t = none ↔
        ¬(upper t = "FRIEND" ∨ upper t = "F" ∨ upper t = "FOE" ∨
          upper t = "HOSTILE" ∨ upper t = "H" ∨ upper t = "UNKNOWN" ∨
          upper t = "U"))) ∧
    (∀ (pn : String → Option ℝ) (raw : String), trim raw ≠ "" →
      (trim raw).toList.headD ' ' ≠ '#' → 6 ≤ (colsOf raw).length →
      parseIFF ((colsOf raw).getD 1 "") = none →
      (processLine pn false raw).1 = RowOutcome.badIFF) ∧
    (∀ (pn : String → Option ℝ) (mh : Bool) (raw : String) (c : Contact),
      (processLine pn mh raw).1 = RowOutcome.ok c →
      parseIFF ((colsOf raw).getD 1 "") = some c.iff) := by
  refine ⟨fun t => ?_, fun pn raw hn hh h6 hiff => ?_, fun pn mh raw c h => ?_⟩
  · unfold parseIFF
    dsimp only
    split_ifs with h1 h2 h3
    · rcases h1 with h | h <;> rw [h] <;> decide
    · rcases h2 with h | h | h <;> rw [h] <;> decide
    · rcases h3 with h | h <;> rw [h] <;> decide
    · push_neg at h1 h2 h3
      simp [h1.1, h1.2, h2.1, h2.2.1, h2.2.2, h3.1, h3.2]
  · rw [processLine_data_eq pn false raw hn hh,
      if_neg (by simp : ¬ (false = true ∧ _)), if_neg (Nat.not_lt.mpr h6), hiff]
  · by_cases hn : trim raw = ""
    · exfalso
      unfold processLine at h
      dsimp only at h
      rw [if_pos hn] at h
      exact RowOutcome.noConfusion h
    by_cases hh : (trim raw).toList.headD ' ' = '#'
    · exfalso
      unfold processLine at h
      dsimp only at h
      rw [if_neg hn, if_pos hh] at h
      exact RowOutcome.noConfusion h
    rw [processLine_data_eq pn mh raw hn hh] at h
    split_ifs at h with hhdr hlen
    cases hiff : parseIFF ((colsOf raw).getD 1 "") with
    | none =>
        rw [hiff] at h
        exact absurd h (by simp)
    | some v =>
        rw [hiff] at h
        injection h with h'
        rw [← h']

/-- Witness for C8: `hostile` parses to Foe; the row `A1,xyz,1,2,3,4` is
discarded as `badIFF`; the single ok-row application recovers the parsed
token of a concrete Unknown row. -/
theorem classification_tokens_witness :
    parseIFF "hostile" = some IFF.Foe ∧
    (processLine (fun _ => none) false "A1,xyz,1,2,3,4").1 =
      RowOutcome.badIFF ∧
    parseIFF ((colsOf "A1,u,1,2,3,4").getD 1 "") =
      some (⟨"A1", IFF.Unknown, 1e9, 0, 0, 1⟩ : Contact).iff :=
  ⟨((classification_tokens.1 "hostile").2.1).mpr (Or.inr (Or.inl (by decide))),
   classification_tokens.2.1 (fun _ => none) "A1,xyz,1,2,3,4" (by decide)
     (by decide) (by decide) (by decide),
   classification_tokens.2.2 (fun _ => none) false "A1,u,1,2,3,4" _ rfl⟩

/-- C9: the guarded operations of `score` are total: the division `1/range`
is taken only above the `0.05` guard and the inverse-range factor never
exceeds `20`; the `log10` argument is forced up to at least `0.01`, so the
logarithm of a non-positive number is never taken. -/
theorem score_guards_total :
    (∀ r : ℝ, (0.05 < r → invRangeFactor r = 1 / r) ∧
      (¬ 0.05 < r → invRangeFactor r = 20) ∧ invRangeFactor r ≤ 20) ∧
    (∀ x : ℝ, 0 < max 0.01 x ∧ (x ≤ 0.01 → rcsLog x = Real.logb 10 0.01)) := by
  constructor
  · intro r
    refine ⟨fun h => if_pos h, fun h => if_neg h, ?_⟩
    unfold invRangeFactor
    by_cases h : (0.05 : ℝ) < r
    · rw [if_pos h, div_le_iff₀ (by linarith)]
      nlinarith
    · rw [if_neg h]
  · intro x
    refine ⟨lt_of_lt_of_le (by norm_num) (le_max_left _ _), fun h => ?_⟩
    unfold rcsLog
    rw [max_eq_left h]

/-- Witness for C9: at range 1 the division is taken, at range 0 the capped
constant is used; at RCS 0 the logarithm argument is the floor 0.01. -/
theorem score_guards_total_witness :
    invRangeFactor 1 = 1 / 1 ∧ invRangeFactor 0 = 20 ∧
      rcsLog 0 = Real.logb 10 0.01 :=
  ⟨(score_guards_total.1 1).1 (by norm_num),
   (score_guards_total.1 0).2.1 (by norm_num),
   (score_guards_total.2 0).2 (by norm_num)⟩

/-- C10: under the default weights every physical term of `score` is
non-negative (the inverse-range term even strictly positive), the
classification term is at least the Friend penalty `-40`, and hence every
contact's total score is strictly greater than `-40`. -/
theorem score_above_neg_forty (c : Contact) :
    0 < sRange defaultWeights c.range_km ∧
    0 ≤ sClosing defaultWeights c.closing_mps ∧
    0 ≤ sRcs defaultWeights c.rcs_m2 ∧
    0 ≤ sAlt defaultWeights c.altitude_m ∧
    -40 ≤ sIff defaultWeights c.iff ∧
    -40 < score c defaultWeights := by
  have hrange : 0 < sRange defaultWeights c.range_km := by
    unfold sRange invRangeFactor defaultWeights
    by_cases h : (0.05 : ℝ) < c.range_km
    · rw [if_pos h]
      have h1 : 0 < 1 / c.range_km := by positivity
      nlinarith
    · rw [if_neg h]
      norm_num
  have hclosing : 0 ≤ sClosing defaultWeights c.closing_mps := by
    unfold sClosing closingNorm clamp defaultWeights
    have h1 : (0 : ℝ) ≤ max 0 (min 1 (c.closing_mps / 400)) := le_max_left _ _
    nlinarith
  have hrcs : 0 ≤ sRcs defaultWeights c.rcs_m2 := by
    unfold sRcs defaultWeights
    have hlog : Real.logb 10 0.01 ≤ rcsLog c.rcs_m2 :=
      Real.logb_le_logb_of_le (by norm_num) (by norm_num) (le_max_left _ _)
    rw [logb_ten_hundredth] at hlog
    nlinarith
  have halt : 0 ≤ sAlt defaultWeights c.altitude_m := by
    unfold sAlt altTerm clamp defaultWeights
    have h1 : min 20000 c.altitude_m ≤ (20000 : ℝ) := min_le_left _ _
    have h2 : max 0 (min 20000 c.altitude_m) ≤ (20000 : ℝ) := by
      rw [max_le_iff]
      exact ⟨by norm_num, h1⟩
    nlinarith
  have hiff : -40 ≤ sIff defaultWeights c.iff := by
    cases h : c.iff <;> simp [sIff, defaultWeights] <;> norm_num
  refine ⟨hrange, hclosing, hrcs, halt, hiff, ?_⟩
  unfold score
  linarith
